import Mathlib

/-!
Verification of the `luxfi/keychain` ledger keychain (src/keychain.go),
shallowly embedded in Lean 4.

Modelling choices:
* `ids.ShortID` (a 20-byte identifier with equality) is modelled as `Addr := Nat`:
  the code never inspects address contents, it only compares them.
* `uint32` derivation indices are modelled as `Index := Nat`: the code performs
  no arithmetic on indices, it only stores and forwards them.
* `[]byte` payloads are modelled as `Bytes := List Nat`.
* Go's `error` values are modelled by the inductive `Err`, with one constructor
  per sentinel error declared in the package plus `deviceErr` for arbitrary
  errors produced by the external device.
* The `Ledger` hardware interface is a record of total functions returning
  `Except Err _`; a concrete record value plays the role of a device.
* The Go map `addrToIdx` is modelled as an association list to which each
  write prepends an entry, with lookup returning the first (= most recent)
  matching entry: exactly Go's last-write-wins map semantics.
* Go's `set.Set[ids.ShortID]` is modelled as `Finset Addr`, `Add` as `insert`.
-/

namespace LuxKeychain

abbrev Addr := Nat
abbrev Index := Nat
abbrev Bytes := List Nat

/-- Errors: the four sentinel errors declared at the top of `keychain.go`,
plus arbitrary device-originated errors. -/
inductive Err where
  | errInvalidIndicesLength
  | errInvalidNumAddrsToDerive
  | errInvalidNumAddrsDerived
  | errInvalidNumSignatures
  | deviceErr (msg : String)
deriving DecidableEq, Repr

/-- The `Ledger` interface for hardware wallet support (`keychain.go` lines
41-48): a record of capabilities provided by the external device. -/
structure Ledger where
  address : String → Index → Except Err Addr
  signHash : Bytes → Index → Except Err Bytes
  sign : Bytes → Index → Except Err Bytes
  signTransaction : Bytes → List Index → Except Err (List Bytes)
  getAddresses : List Index → Except Err (List Addr)
  disconnect : Unit → Except Err Unit

/-- `ledgerKeychain` (`keychain.go` lines 52-56): the device handle, the set of
derived addresses, and the address-to-index map (association list, most recent
write first). -/
structure ledgerKeychain where
  ledger : Ledger
  addrs : Finset Addr
  addrToIdx : List (Addr × Index)

/-- `ledgerSigner` (`keychain.go` lines 60-64): device handle, bound derivation
index, and resolved address. -/
structure ledgerSigner where
  ledger : Ledger
  idx : Index
  addr : Addr

/-- Go map lookup `m[addr]` on the association-list model: first (most
recently written) matching entry. -/
def mapLookup : List (Addr × Index) → Addr → Option Index
  | [], _ => none
  | (k, v) :: rest, a => if k = a then some v else mapLookup rest a

/-- `NewLedgerKeychain` (`keychain.go` lines 70-96). The construction loop
`for i, addr := range addresses { addrToIdx[addr] = indices[i]; addrs.Add(addr) }`
is modelled as two folds over `addresses.zip indices`: a map write prepends the
entry (last write wins under `mapLookup`), a set add is `Finset.insert`. -/
def NewLedgerKeychain (ledger : Ledger) (indices : List Index) :
    Except Err ledgerKeychain :=
  if indices.length = 0 then
    .error .errInvalidIndicesLength
  else
    match ledger.getAddresses indices with
    | .error e => .error e
    | .ok addresses =>
      if addresses.length ≠ indices.length then
        .error .errInvalidNumAddrsDerived
      else
        let pairs := addresses.zip indices
        .ok { ledger := ledger,
              addrs := pairs.foldl (fun s p => insert p.1 s) ∅,
              addrToIdx := pairs.foldl (fun m p => (p.1, p.2) :: m) [] }

/-- `NewLedgerKeychainFromIndices` is an alias for `NewLedgerKeychain`
(`keychain.go` line 68). -/
def NewLedgerKeychainFromIndices := NewLedgerKeychain

/-- `ledgerKeychain.Get` (`keychain.go` lines 98-108): map lookup; on a hit,
a fresh `ledgerSigner` bound to the found index and the queried address. -/
def ledgerKeychain.Get (l : ledgerKeychain) (addr : Addr) : Option ledgerSigner :=
  match mapLookup l.addrToIdx addr with
  | none => none
  | some idx => some { ledger := l.ledger, idx := idx, addr := addr }

/-- `ledgerKeychain.Addresses` (`keychain.go` lines 110-112). -/
def ledgerKeychain.Addresses (l : ledgerKeychain) : Finset Addr :=
  l.addrs

/-- `ledgerSigner.SignHash` (`keychain.go` lines 114-116). -/
def ledgerSigner.SignHash (l : ledgerSigner) (hash : Bytes) : Except Err Bytes :=
  l.ledger.signHash hash l.idx

/-- `ledgerSigner.Sign` (`keychain.go` lines 118-120). -/
def ledgerSigner.Sign (l : ledgerSigner) (hash : Bytes) : Except Err Bytes :=
  l.ledger.sign hash l.idx

/-- `ledgerSigner.Address` (`keychain.go` lines 122-124). -/
def ledgerSigner.Address (l : ledgerSigner) : Addr :=
  l.addr

/-! ## Concrete devices used as evaluation witnesses -/

/-- A deterministic stand-in device deriving each address as the identity of
its index. -/
def testLedger : Ledger where
  address := fun _ i => .ok i
  signHash := fun h i => .ok (i :: h)
  sign := fun h i => .ok (i :: h)
  signTransaction := fun _ is => .ok (is.map fun i => [i])
  getAddresses := fun is => .ok is
  disconnect := fun _ => .ok ()

/-- A stand-in device on which every index derives the same address `7`. -/
def collideLedger : Ledger where
  address := fun _ _ => .ok 7
  signHash := fun h i => .ok (i :: h)
  sign := fun h i => .ok (i :: h)
  signTransaction := fun _ is => .ok (is.map fun i => [i])
  getAddresses := fun is => .ok (is.map fun _ => 7)
  disconnect := fun _ => .ok ()

/-- A stand-in device returning one address fewer than requested. -/
def shortLedger : Ledger where
  address := fun _ i => .ok i
  signHash := fun h i => .ok (i :: h)
  sign := fun h i => .ok (i :: h)
  signTransaction := fun _ is => .ok (is.map fun i => [i])
  getAddresses := fun is => .ok (is.drop 1)
  disconnect := fun _ => .ok ()

/-- A stand-in device whose batch resolution always fails. -/
def failLedger : Ledger where
  address := fun _ _ => .error (.deviceErr "device disconnected")
  signHash := fun _ _ => .error (.deviceErr "device disconnected")
  sign := fun _ _ => .error (.deviceErr "device disconnected")
  signTransaction := fun _ _ => .error (.deviceErr "device disconnected")
  getAddresses := fun _ => .error (.deviceErr "device disconnected")
  disconnect := fun _ => .error (.deviceErr "device disconnected")

/-! ## Helper lemmas about the map and set models -/

/-- A hit in the map is exactly membership of the key among the entries. -/
theorem mapLookup_isSome_iff (l : List (Addr × Index)) (a : Addr) :
    (mapLookup l a).isSome ↔ a ∈ l.map Prod.fst := by
  induction l with
  | nil => simp [mapLookup]
  | cons p rest ih =>
    obtain ⟨k, v⟩ := p
    by_cases hk : k = a
    · subst hk; simp [mapLookup]
    · simp [mapLookup, hk, ih, Ne.symm hk]

/-- A looked-up value comes from an actual entry of the list. -/
theorem mapLookup_mem (l : List (Addr × Index)) (a : Addr) (v : Index)
    (h : mapLookup l a = some v) : (a, v) ∈ l := by
  induction l with
  | nil => simp [mapLookup] at h
  | cons p rest ih =>
    obtain ⟨k, w⟩ := p
    simp only [mapLookup] at h
    by_cases hk : k = a
    · rw [if_pos hk] at h
      subst hk
      cases h
      exact List.mem_cons_self _ _
    · rw [if_neg hk] at h
      exact List.mem_cons_of_mem _ (ih h)

/-- Lookup skips a prefix none of whose keys match. -/
theorem mapLookup_append_of_none (l₁ l₂ : List (Addr × Index)) (a : Addr)
    (h : mapLookup l₁ a = none) :
    mapLookup (l₁ ++ l₂) a = mapLookup l₂ a := by
  induction l₁ with
  | nil => simp
  | cons p rest ih =>
    obtain ⟨k, v⟩ := p
    simp only [mapLookup] at h ⊢
    by_cases hk : k = a
    · rw [if_pos hk] at h; cases h
    · rw [if_neg hk] at h
      rw [if_neg hk]
      exact ih h

/-- Lookup misses when the key is absent. -/
theorem mapLookup_eq_none (l : List (Addr × Index)) (a : Addr)
    (h : a ∉ l.map Prod.fst) : mapLookup l a = none := by
  cases hl : mapLookup l a with
  | none => rfl
  | some v =>
    exact absurd ((mapLookup_isSome_iff l a).mp (by simp [hl])) h

/-- The sequence of map writes performed by the construction loop yields the
reversed pair list (most recent write first). -/
theorem foldl_write_eq (pairs acc : List (Addr × Index)) :
    pairs.foldl (fun m p => (p.1, p.2) :: m) acc = pairs.reverse ++ acc := by
  induction pairs generalizing acc with
  | nil => simp
  | cons p rest ih => simp [ih]

/-- Membership in the set built by the construction loop. -/
theorem foldl_insert_mem (pairs : List (Addr × Index)) (init : Finset Addr) (a : Addr) :
    a ∈ pairs.foldl (fun s p => insert p.1 s) init ↔
      a ∈ pairs.map Prod.fst ∨ a ∈ init := by
  induction pairs generalizing init with
  | nil => simp
  | cons p rest ih =>
    simp only [List.foldl_cons, List.map_cons, List.mem_cons, ih, Finset.mem_insert]
    tauto

/-- The set built by the construction loop is the finite set of first
components of the written pairs. -/
theorem foldl_insert_eq_toFinset (pairs : List (Addr × Index)) :
    pairs.foldl (fun s p => insert p.1 s) ∅ = (pairs.map Prod.fst).toFinset := by
  apply Finset.ext
  intro a
  rw [foldl_insert_mem]
  simp

/-- Characterization of a successful construction: the resulting keychain
holds the device handle, the finite set of derived addresses, and the
reversed association list of (address, index) pairs. -/
theorem newLedgerKeychain_ok_eq (ledger : Ledger) (indices : List Index)
    (as : List Addr)
    (hne : indices ≠ [])
    (hget : ledger.getAddresses indices = .ok as)
    (hlen : as.length = indices.length) :
    NewLedgerKeychain ledger indices =
      .ok { ledger := ledger,
            addrs := ((as.zip indices).map Prod.fst).toFinset,
            addrToIdx := (as.zip indices).reverse } := by
  simp only [NewLedgerKeychain, hget]
  rw [if_neg (by simpa using hne), if_neg (by simp [hlen])]
  rw [foldl_write_eq, foldl_insert_eq_toFinset]
  simp

/-! ## Claim theorems -/

/-- Claim C1: for every non-empty index list for which the device returns
pairwise-distinct addresses (one per index, no error), constructing a
keychain succeeds, and `Get` on every address of `Addresses()` returns
`found = true` with a signer whose `Address()` equals the queried address. -/
theorem C1_construct_get_roundtrip (ledger : Ledger) (indices : List Index)
    (as : List Addr)
    (hne : indices ≠ [])
    (hget : ledger.getAddresses indices = .ok as)
    (hlen : as.length = indices.length)
    (_hnodup : as.Nodup) :
    ∃ kc, NewLedgerKeychain ledger indices = .ok kc ∧
      ∀ a ∈ kc.Addresses, ∃ s, kc.Get a = some s ∧ s.Address = a := by
  refine ⟨_, newLedgerKeychain_ok_eq ledger indices as hne hget hlen, ?_⟩
  intro a ha
  simp only [ledgerKeychain.Addresses, List.mem_toFinset] at ha
  have hsome : (mapLookup ((as.zip indices).reverse) a).isSome := by
    rw [mapLookup_isSome_iff]
    simpa using ha
  obtain ⟨idx, hidx⟩ := Option.isSome_iff_exists.mp hsome
  exact ⟨⟨ledger, idx, a⟩, by simp [ledgerKeychain.Get, hidx], rfl⟩

/-- Concrete evaluation of C1: the stand-in device on indices `[1, 2, 3]`. -/
theorem C1_witness :
    ∃ kc, NewLedgerKeychain testLedger [1, 2, 3] = .ok kc ∧
      ∀ a ∈ kc.Addresses, ∃ s, kc.Get a = some s ∧ s.Address = a :=
  C1_construct_get_roundtrip testLedger [1, 2, 3] [1, 2, 3]
    (by decide) rfl rfl (by decide)

/-- Claim C5: construction with an empty index list always fails with the
invalid-indices-length error; the result does not depend on the device in any
way (the theorem holds for every device value), so no device call is made and
no partial state exists. -/
theorem C5_empty_indices_fails (ledger : Ledger) :
    NewLedgerKeychain ledger [] = .error .errInvalidIndicesLength := rfl

/-- Claim C6: if the device's batch resolution succeeds but returns a number
of addresses different from the number of requested indices, construction
fails with the invalid-address-count error and no keychain is returned. -/
theorem C6_count_mismatch_fails (ledger : Ledger) (indices : List Index)
    (as : List Addr)
    (hne : indices ≠ [])
    (hget : ledger.getAddresses indices = .ok as)
    (hlen : as.length ≠ indices.length) :
    NewLedgerKeychain ledger indices = .error .errInvalidNumAddrsDerived := by
  simp only [NewLedgerKeychain, hget]
  rw [if_neg (by simpa using hne), if_pos hlen]

/-- Concrete evaluation of C6: a device returning 2 addresses for 3 indices. -/
theorem C6_witness :
    NewLedgerKeychain shortLedger [1, 2, 3] = .error .errInvalidNumAddrsDerived :=
  C6_count_mismatch_fails shortLedger [1, 2, 3] [2, 3] (by decide) rfl (by decide)

/-- Claim C7: if the device's batch address-resolution call fails, the
construction returns exactly that device error, unmodified, and no keychain
value is produced. -/
theorem C7_device_error_propagated (ledger : Ledger) (indices : List Index)
    (e : Err)
    (hne : indices ≠ [])
    (hget : ledger.getAddresses indices = .error e) :
    NewLedgerKeychain ledger indices = .error e := by
  simp only [NewLedgerKeychain, hget]
  rw [if_neg (by simpa using hne)]

/-- Concrete evaluation of C7: a failing device on indices `[1, 2]`. -/
theorem C7_witness :
    NewLedgerKeychain failLedger [1, 2] = .error (.deviceErr "device disconnected") :=
  C7_device_error_propagated failLedger [1, 2] (.deviceErr "device disconnected")
    (by decide) rfl

/-- Claim C2: the mapping pairs the i-th returned address with the i-th input
index, and on a collision the later index overwrites the earlier entry: if the
occurrence of `a` shown in the split is the last one among the returned
addresses, `Get a` yields a signer bound to the index paired with it. -/
theorem C2_last_index_wins (ledger : Ledger) (indices m₁ m₂ : List Index)
    (as l₁ l₂ : List Addr) (a : Addr) (v : Index)
    (hne : indices ≠ [])
    (hget : ledger.getAddresses indices = .ok as)
    (hlen : as.length = indices.length)
    (hsplit : as = l₁ ++ a :: l₂)
    (hisplit : indices = m₁ ++ v :: m₂)
    (hl : l₁.length = m₁.length)
    (hlast : a ∉ l₂) :
    ∃ kc, NewLedgerKeychain ledger indices = .ok kc ∧
      ∃ s, kc.Get a = some s ∧ s.idx = v ∧ s.addr = a := by
  refine ⟨_, newLedgerKeychain_ok_eq ledger indices as hne hget hlen, ?_⟩
  subst hsplit hisplit
  have hl₂ : l₂.length = m₂.length := by
    simp only [List.length_append, List.length_cons] at hlen
    omega
  have hzip : (l₁ ++ a :: l₂).zip (m₁ ++ v :: m₂)
      = l₁.zip m₁ ++ (a, v) :: l₂.zip m₂ := by
    rw [List.zip_append hl, List.zip_cons_cons]
  have hnone : mapLookup ((l₂.zip m₂).reverse) a = none := by
    apply mapLookup_eq_none
    intro hmem
    apply hlast
    rw [List.map_reverse, List.mem_reverse,
      List.map_fst_zip l₂ m₂ hl₂.le] at hmem
    exact hmem
  refine ⟨⟨ledger, v, a⟩, ?_, rfl, rfl⟩
  simp only [ledgerKeychain.Get, hzip]
  rw [show (l₁.zip m₁ ++ (a, v) :: l₂.zip m₂).reverse
      = (l₂.zip m₂).reverse ++ (a, v) :: (l₁.zip m₁).reverse by simp,
    mapLookup_append_of_none _ _ _ hnone]
  simp [mapLookup]

/-- Concrete evaluation of C2: both indices `1` and `2` derive address `7`;
the handle for `7` is bound to the later index `2`. -/
theorem C2_witness :
    ∃ kc, NewLedgerKeychain collideLedger [1, 2] = .ok kc ∧
      ∃ s, kc.Get 7 = some s ∧ s.idx = 2 ∧ s.addr = 7 :=
  C2_last_index_wins collideLedger [1, 2] [1] [] [7, 7] [7] [] 7 2
    (by decide) rfl rfl rfl rfl rfl (by decide)

/-- Claim C3: on a successful construction, the address set is exactly the
domain of the address-to-index map, and every signer returned by `Get`
carries the queried address together with an index that produced that
address at construction time. -/
theorem C3_domain_and_binding (ledger : Ledger) (indices : List Index)
    (as : List Addr)
    (hne : indices ≠ [])
    (hget : ledger.getAddresses indices = .ok as)
    (hlen : as.length = indices.length) :
    ∃ kc, NewLedgerKeychain ledger indices = .ok kc ∧
      (∀ a, a ∈ kc.Addresses ↔ (mapLookup kc.addrToIdx a).isSome) ∧
      (∀ a s, kc.Get a = some s → s.addr = a ∧
        ∃ i, ∃ h₁ : i < as.length, ∃ h₂ : i < indices.length,
          as[i] = a ∧ indices[i] = s.idx) := by
  refine ⟨_, newLedgerKeychain_ok_eq ledger indices as hne hget hlen, ?_, ?_⟩
  · intro a
    simp only [ledgerKeychain.Addresses, List.mem_toFinset, mapLookup_isSome_iff]
    simp
  · intro a s hs
    simp only [ledgerKeychain.Get] at hs
    cases hm : mapLookup ((as.zip indices).reverse) a with
    | none => rw [hm] at hs; cases hs
    | some idx =>
      rw [hm] at hs
      cases hs
      refine ⟨rfl, ?_⟩
      have hmem : (a, idx) ∈ as.zip indices := by
        have := mapLookup_mem _ _ _ hm
        simpa using this
      obtain ⟨i, hi, hgi⟩ := List.mem_iff_getElem.mp hmem
      have h₁ : i < as.length := by
        rw [List.length_zip] at hi
        omega
      have h₂ : i < indices.length := by
        rw [List.length_zip] at hi
        omega
      refine ⟨i, h₁, h₂, ?_, ?_⟩
      · rw [@List.getElem_zip _ _ as indices i hi] at hgi
        exact congrArg Prod.fst hgi
      · rw [@List.getElem_zip _ _ as indices i hi] at hgi
        exact congrArg Prod.snd hgi

/-- Concrete evaluation of C3: the stand-in device on indices `[1, 2, 3]`. -/
theorem C3_witness :
    ∃ kc, NewLedgerKeychain testLedger [1, 2, 3] = .ok kc ∧
      (∀ a, a ∈ kc.Addresses ↔ (mapLookup kc.addrToIdx a).isSome) ∧
      (∀ a s, kc.Get a = some s → s.addr = a ∧
        ∃ i, ∃ _h₁ : i < ([1, 2, 3] : List Addr).length,
          ∃ h₂ : i < ([1, 2, 3] : List Index).length,
          ([1, 2, 3] : List Addr)[i] = a ∧ ([1, 2, 3] : List Index)[i] = s.idx) :=
  C3_domain_and_binding testLedger [1, 2, 3] [1, 2, 3] (by decide) rfl rfl

/-- Claim C4: the signer's `Sign` and `SignHash` forward the payload and the
bound index unchanged to the device's corresponding entry point, and return
exactly the device's result, success or error alike; the equation with the
single device call shows there is no retry and no other call. -/
theorem C4_signer_forwards (kc : ledgerKeychain) (a : Addr) (s : ledgerSigner)
    (hs : kc.Get a = some s) (hash msg : Bytes) :
    s.SignHash hash = kc.ledger.signHash hash s.idx ∧
    s.Sign msg = kc.ledger.sign msg s.idx := by
  simp only [ledgerKeychain.Get] at hs
  cases hm : mapLookup kc.addrToIdx a with
  | none => rw [hm] at hs; cases hs
  | some idx =>
    rw [hm] at hs
    cases hs
    exact ⟨rfl, rfl⟩

/-- Concrete evaluation of C4: a keychain holding address `5` at index `9`. -/
theorem C4_witness :
    ledgerSigner.SignHash ⟨testLedger, 9, 5⟩ [3] = testLedger.signHash [3] 9 ∧
    ledgerSigner.Sign ⟨testLedger, 9, 5⟩ [4] = testLedger.sign [4] 9 :=
  C4_signer_forwards ⟨testLedger, {5}, [(5, 9)]⟩ 5 ⟨testLedger, 9, 5⟩ rfl [3] [4]

/-- Claim C8: `Get` on an address the keychain never derived returns
not-found (`none`), with no error; `Get` is a pure function of the keychain
value, so no device call happens and the state is unchanged. -/
theorem C8_get_miss (ledger : Ledger) (indices : List Index) (as : List Addr)
    (a : Addr)
    (hne : indices ≠ [])
    (hget : ledger.getAddresses indices = .ok as)
    (hlen : as.length = indices.length)
    (hnot : a ∉ as) :
    ∃ kc, NewLedgerKeychain ledger indices = .ok kc ∧
      a ∉ kc.Addresses ∧ kc.Get a = none := by
  refine ⟨_, newLedgerKeychain_ok_eq ledger indices as hne hget hlen, ?_, ?_⟩
  · simp only [ledgerKeychain.Addresses, List.mem_toFinset]
    rw [List.map_fst_zip as indices hlen.le]
    exact hnot
  · simp only [ledgerKeychain.Get]
    have hnone : mapLookup ((as.zip indices).reverse) a = none := by
      apply mapLookup_eq_none
      intro hmem
      apply hnot
      rw [List.map_reverse, List.mem_reverse,
        List.map_fst_zip as indices hlen.le] at hmem
      exact hmem
    rw [hnone]

/-- Concrete evaluation of C8: address `9` was never derived. -/
theorem C8_witness :
    ∃ kc, NewLedgerKeychain testLedger [1, 2, 3] = .ok kc ∧
      (9 : Addr) ∉ kc.Addresses ∧ kc.Get 9 = none :=
  C8_get_miss testLedger [1, 2, 3] [1, 2, 3] 9 (by decide) rfl rfl (by decide)

/-- Claim C9: the number of addresses held equals the number of distinct
device-returned addresses (duplicates collapsed by the overwrite), which is
at most — and possibly less than — the number of input indices. -/
theorem C9_addresses_card (ledger : Ledger) (indices : List Index)
    (as : List Addr)
    (hne : indices ≠ [])
    (hget : ledger.getAddresses indices = .ok as)
    (hlen : as.length = indices.length) :
    ∃ kc, NewLedgerKeychain ledger indices = .ok kc ∧
      kc.Addresses.card = as.dedup.length ∧
      kc.Addresses.card ≤ indices.length := by
  refine ⟨_, newLedgerKeychain_ok_eq ledger indices as hne hget hlen, ?_, ?_⟩
  · simp only [ledgerKeychain.Addresses]
    rw [List.map_fst_zip as indices hlen.le]
    exact List.card_toFinset as
  · simp only [ledgerKeychain.Addresses]
    rw [List.map_fst_zip as indices hlen.le]
    calc as.toFinset.card ≤ as.length := List.toFinset_card_le as
    _ = indices.length := hlen

/-- Concrete evaluation of C9: two indices collide on one address, so the
keychain holds 1 address out of 2 requested indices. -/
theorem C9_witness :
    ∃ kc, NewLedgerKeychain collideLedger [1, 2] = .ok kc ∧
      kc.Addresses.card = ([7, 7] : List Addr).dedup.length ∧
      kc.Addresses.card ≤ ([1, 2] : List Index).length :=
  C9_addresses_card collideLedger [1, 2] [7, 7] (by decide) rfl rfl

/-- Claim C10: construction fails in exactly three ways: empty index list
(invalid-indices-length error), a device error propagated verbatim from the
batch resolution, or a count mismatch (invalid-address-count error). In
particular the reserved errors for number-of-addresses-to-derive and
number-of-signatures are never originated by the keychain or its signers:
they can only appear when the device itself returned them. -/
theorem C10_error_taxonomy (ledger : Ledger) (indices : List Index) (e : Err)
    (h : NewLedgerKeychain ledger indices = .error e) :
    ((indices = [] ∧ e = .errInvalidIndicesLength) ∨
     (indices ≠ [] ∧ ledger.getAddresses indices = .error e) ∨
     (indices ≠ [] ∧ ∃ as, ledger.getAddresses indices = .ok as ∧
        as.length ≠ indices.length ∧ e = .errInvalidNumAddrsDerived)) ∧
    ((e = .errInvalidNumAddrsToDerive ∨ e = .errInvalidNumSignatures) →
      ledger.getAddresses indices = .error e) ∧
    (∀ (s : ledgerSigner) (b : Bytes),
      s.SignHash b = s.ledger.signHash b s.idx ∧
      s.Sign b = s.ledger.sign b s.idx) := by
  have hsig : ∀ (s : ledgerSigner) (b : Bytes),
      s.SignHash b = s.ledger.signHash b s.idx ∧
      s.Sign b = s.ledger.sign b s.idx := fun _ _ => ⟨rfl, rfl⟩
  refine And.imp id (fun hx => ⟨hx, hsig⟩) ?_
  by_cases hne : indices = []
  · subst hne
    have h0 : NewLedgerKeychain ledger [] = .error .errInvalidIndicesLength := rfl
    rw [h0] at h
    obtain rfl := (Except.error.inj h)
    refine ⟨Or.inl ⟨rfl, rfl⟩, ?_⟩
    rintro (hcase | hcase) <;> cases hcase
  · cases hget : ledger.getAddresses indices with
    | error e₀ =>
      have hC : NewLedgerKeychain ledger indices = .error e₀ := by
        simp only [NewLedgerKeychain, hget]
        rw [if_neg (by simpa using hne)]
      rw [hC] at h
      obtain rfl := (Except.error.inj h)
      exact ⟨Or.inr (Or.inl ⟨hne, rfl⟩), fun _ => rfl⟩
    | ok as =>
      by_cases hlen : as.length = indices.length
      · have hC := newLedgerKeychain_ok_eq ledger indices as hne hget hlen
        rw [hC] at h
        cases h
      · have hC : NewLedgerKeychain ledger indices
            = .error .errInvalidNumAddrsDerived := by
          simp only [NewLedgerKeychain, hget]
          rw [if_neg (by simpa using hne), if_pos hlen]
        rw [hC] at h
        obtain rfl := (Except.error.inj h)
        refine ⟨Or.inr (Or.inr ⟨hne, as, rfl, hlen, rfl⟩), ?_⟩
        rintro (hcase | hcase) <;> cases hcase

/-- Concrete evaluation of C10 at the empty index list. -/
theorem C10_witness :
    ((([] : List Index) = [] ∧
        Err.errInvalidIndicesLength = .errInvalidIndicesLength) ∨
     (([] : List Index) ≠ [] ∧
        testLedger.getAddresses [] = .error .errInvalidIndicesLength) ∨
     (([] : List Index) ≠ [] ∧ ∃ as, testLedger.getAddresses [] = .ok as ∧
        as.length ≠ ([] : List Index).length ∧
        Err.errInvalidIndicesLength = .errInvalidNumAddrsDerived)) ∧
    ((Err.errInvalidIndicesLength = .errInvalidNumAddrsToDerive ∨
        Err.errInvalidIndicesLength = .errInvalidNumSignatures) →
      testLedger.getAddresses [] = .error .errInvalidIndicesLength) ∧
    (∀ (s : ledgerSigner) (b : Bytes),
      s.SignHash b = s.ledger.signHash b s.idx ∧
      s.Sign b = s.ledger.sign b s.idx) :=
  C10_error_taxonomy testLedger [] .errInvalidIndicesLength rfl

end LuxKeychain
